import Mathlib

/-!
Shallow embedding of `org.py` (directory organizer).

Strings are modelled as `List Char`.  The Python string primitives used by
the program (`strip`, `lower`, `startswith`, `endswith`, `in`, `splitlines`,
slicing) are embedded below; `strip` uses the ASCII whitespace characters
stripped by Python (`' '`, `\t`, `\n`, `\r`, `\x0b`, `\x0c`) and
`splitlines` the ASCII line boundaries (`\n`, `\r`, `\r\n`, `\x0b`, `\x0c`,
plus the information separators), which cover every character the program's
data can realistically contain.

External effects (the `tree` subprocess, the Groq completion call, `input()`,
and the `/bin/bash -ec` subprocess) are modelled as inputs: a run of the
program is determined by the listing text, the completion response text, the
confirmation line (`none` models `EOFError`), and the exit code / stdout /
stderr the generated script would produce if invoked.
-/

namespace Organizer

/-- ASCII whitespace stripped by Python `str.strip()`. -/
def isPyWS (c : Char) : Bool :=
  c = ' ' || c = '\t' || c = '\n' || c = '\r' || c = '\x0b' || c = '\x0c'

/-- Python `str.lstrip()`. -/
def pyLstrip (s : List Char) : List Char :=
  s.dropWhile isPyWS

/-- Python `str.rstrip()`. -/
def pyRstrip : List Char → List Char
  | [] => []
  | c :: rest =>
    let r := pyRstrip rest
    if r.isEmpty && isPyWS c then [] else c :: r

/-- Python `str.strip()`. -/
def pyStrip (s : List Char) : List Char :=
  pyRstrip (pyLstrip s)

/-- Python `str.lower()` (ASCII letters, as in `Char.toLower`). -/
def pyLower (s : List Char) : List Char :=
  s.map Char.toLower

/-- Python `needle in hay` on strings. -/
def pyContains (needle : List Char) : List Char → Bool
  | [] => needle.isEmpty
  | c :: rest => needle.isPrefixOf (c :: rest) || pyContains needle rest

/-- Line-boundary characters of Python `str.splitlines()` (ASCII ones). -/
def isLineBreak (c : Char) : Bool :=
  c = '\n' || c = '\r' || c = '\x0b' || c = '\x0c' ||
  c = '\x1c' || c = '\x1d' || c = '\x1e'

/-- Collapse each `\r\n` pair to a single `\n` (first phase of `splitlines`). -/
def normCRLF : List Char → List Char
  | [] => []
  | [c] => [c]
  | c1 :: c2 :: rest =>
    if c1 = '\r' && c2 = '\n' then '\n' :: normCRLF rest
    else c1 :: normCRLF (c2 :: rest)

/-- Split at single line-boundary characters, keeping no trailing empty line
(second phase of `splitlines`); `cur` is the current line, reversed. -/
def splitBreaksGo (cur : List Char) : List Char → List (List Char)
  | [] => [cur.reverse]
  | c :: rest =>
    if isLineBreak c then
      cur.reverse :: (if rest.isEmpty then [] else splitBreaksGo [] rest)
    else
      splitBreaksGo (c :: cur) rest

/-- Python `str.splitlines()`. -/
def pySplitlines (s : List Char) : List (List Char) :=
  if s.isEmpty then [] else splitBreaksGo [] (normCRLF s)

/-- Python `"\n".join(lines)`. -/
def joinNL (lines : List (List Char)) : List Char :=
  List.intercalate ['\n'] lines

/-! String constants of `org.py`. -/

/-- `"#!"`, the interpreter-directive marker. -/
def shebangMark : List Char := "#!".data

/-- `"#!/bin/bash\n"`, prepended when the response lacks a directive. -/
def shebangLine : List Char := "#!/bin/bash\n".data

/-- `"```"`, the bare fenced-code marker. -/
def fence : List Char := "```".data

/-- `"```bash"`, the fenced-code marker with the `bash` language tag. -/
def fenceBash : List Char := "```bash".data

/-- The placeholder script returned for an empty completion response
(line 109 of `org.py`). -/
def emptyPlaceholder : List Char := "#!/bin/bash\n# Groq returned empty response".data

/-- `" 0 directories, 0 files"`: the marker tested (with its leading space)
on line 203 of `org.py`. -/
def emptyTreeMarker : List Char := " 0 directories, 0 files".data

/-- The same marker without the leading space, as the spec words it. -/
def emptyTreeMarkerNoSpace : List Char := "0 directories, 0 files".data

/-!
Normalization of the completion response: lines 107-126 of
`get_groq_completion`.  Python `s[7:]` is `drop 7`, `s[3:]` is `drop 3`,
`s[:-3]` is `take (length - 3)`.
-/

/-- Lines 107-126 of `org.py`: empty-response placeholder, fence stripping,
shebang insertion, final `strip()`. -/
def normalizeResponse (resp : List Char) : List Char :=
  if resp.isEmpty || (pyStrip resp).isEmpty then
    emptyPlaceholder
  else
    let r :=
      if fenceBash.isPrefixOf (pyStrip resp) then
        let r0 := (pyStrip resp).drop 7
        if fence.isSuffixOf r0 then r0.take (r0.length - 3) else r0
      else if fence.isPrefixOf (pyStrip resp) then
        let r0 := (pyStrip resp).drop 3
        if fence.isSuffixOf r0 then r0.take (r0.length - 3) else r0
      else resp
    if shebangMark.isPrefixOf (pyStrip r) then pyStrip r
    else pyStrip (shebangLine ++ r)

/-! `execute_bash_script`: lines 144-196 of `org.py`. -/

/-- Exit code, stdout and stderr of a completed subprocess. -/
structure ProcResult where
  exitCode : Nat
  out : List Char
  err : List Char
deriving DecidableEq, Repr

/-- The filter of line 152: keep a line iff its stripped form is non-empty
and does not start with `#`. -/
def keepLine (l : List Char) : Bool :=
  !(pyStrip l).isEmpty && !(['#'].isPrefixOf (pyStrip l))

/-- `clean_script` of line 152. -/
def cleanScript (script : List Char) : List Char :=
  joinNL ((pySplitlines script).filter keepLine)

/-- The test of line 153: the script reaches the shell iff this is `true`. -/
def hasCommands (script : List Char) : Bool :=
  !(cleanScript script).isEmpty

/-- Line 184: the line printed as a locating hint in the failure branch,
`splitlines()[1]` when the script starts with `#!`, else `splitlines()[0]`.
Python indexing raises on out-of-bounds, modelled by `Option`. -/
def firstCommandHint (script : List Char) : Option (List Char) :=
  (pySplitlines script)[if shebangMark.isPrefixOf script then 1 else 0]?

/-- Outcome of `execute_bash_script`: return without invoking the shell
(lines 153-155), normal return after a zero exit (lines 172-179), or
`sys.exit(returncode)` after a non-zero exit (lines 181-192, carrying the
reported code, hint line, stdout and stderr). -/
inductive ExecOutcome where
  | skipped : ExecOutcome
  | completed (out err : List Char) : ExecOutcome
  | failed (code : Nat) (hint : Option (List Char)) (out err : List Char) : ExecOutcome
deriving DecidableEq, Repr

/-- Lines 144-196 of `org.py`; `run` is what `/bin/bash -ec script` would
return if invoked. -/
def execute_bash_script (script : List Char) (run : ProcResult) : ExecOutcome :=
  if !(hasCommands script) then .skipped
  else if run.exitCode = 0 then .completed run.out run.err
  else .failed run.exitCode (firstCommandHint script) run.out run.err

/-! The `__main__` block: lines 199-236 of `org.py`. -/

/-- Line 203: whether the pipeline stops (``sys.exit(0)``) before calling the
completion service. -/
inductive ListingGateResult where
  | nothingToDo : ListingGateResult
  | proceed : ListingGateResult
deriving DecidableEq, Repr

/-- The test of line 203: empty output, whitespace-only output, or output
containing `" 0 directories, 0 files"` stops the pipeline with exit 0. -/
def listingGate (t : List Char) : ListingGateResult :=
  if t.isEmpty || (pyStrip t).isEmpty || pyContains emptyTreeMarker t then
    .nothingToDo
  else .proceed

/-- Decision of the confirmation prompt, lines 222-229. -/
inductive GateDecision where
  | approved : GateDecision
  | declined : GateDecision
  | noInput : GateDecision
deriving DecidableEq, Repr

/-- Lines 222-229: `none` models `EOFError` from `input()`; otherwise the
script is approved iff the line, lowercased, equals `"y"`. -/
def confirmGate : Option (List Char) → GateDecision
  | none => .noInput
  | some c => if pyLower c = ['y'] then .approved else .declined

/-- The external inputs that determine a run of `__main__` once `tree`
succeeded: its stdout, the completion response text, the confirmation line
(`none` = end-of-input), and the result the generated script would have. -/
structure MainInputs where
  treeOut : List Char
  response : List Char
  confirm : Option (List Char)
  runResult : ProcResult
deriving DecidableEq, Repr

/-- How a run of `__main__` ends. -/
inductive MainOutcome where
  | noFiles : MainOutcome
  | nonInteractive : MainOutcome
  | cancelled : MainOutcome
  | execSkipped : MainOutcome
  | execOk (out err : List Char) : MainOutcome
  | execFailed (code : Nat) (hint : Option (List Char)) (out err : List Char) : MainOutcome
deriving DecidableEq, Repr

/-- Lines 199-236 of `org.py`. -/
def mainRun (i : MainInputs) : MainOutcome :=
  match listingGate i.treeOut with
  | .nothingToDo => .noFiles
  | .proceed =>
    match confirmGate i.confirm with
    | .noInput => .nonInteractive
    | .declined => .cancelled
    | .approved =>
      match execute_bash_script (normalizeResponse i.response) i.runResult with
      | .skipped => .execSkipped
      | .completed o e => .execOk o e
      | .failed c h o e => .execFailed c h o e

/-- The process exit code of each outcome: `sys.exit(0)` on line 205,
`sys.exit(1)` on line 227, `sys.exit(0)` on line 236,
`sys.exit(e.returncode)` on line 192, and falling off the end of the
script exits 0. -/
def mainExitCode : MainOutcome → Nat
  | .noFiles => 0
  | .nonInteractive => 1
  | .cancelled => 0
  | .execSkipped => 0
  | .execOk _ _ => 0
  | .execFailed code _ _ _ => code

/-- `get_groq_completion` (line 208) is called iff line 203's gate passes. -/
def completionCalled (i : MainInputs) : Bool :=
  match listingGate i.treeOut with
  | .nothingToDo => false
  | .proceed => true

/-- Whether `execute_bash_script` (line 231) is reached in a run. -/
def executorReached : MainOutcome → Bool
  | .execSkipped => true
  | .execOk _ _ => true
  | .execFailed _ _ _ _ => true
  | _ => false

/-! Helper lemmas about the embedded Python primitives. -/

lemma pyStrip_nil : pyStrip [] = [] := rfl

lemma ne_nil_of_pyStrip_ne_nil {s : List Char} (h : pyStrip s ≠ []) : s ≠ [] := by
  intro he
  subst he
  exact h rfl

lemma isPrefixOf_append_self (l t : List Char) : l.isPrefixOf (l ++ t) = true := by
  rw [List.isPrefixOf_iff_prefix]
  exact List.prefix_append l t

lemma isSuffixOf_append_self (l t : List Char) : t.isSuffixOf (l ++ t) = true := by
  rw [List.isSuffixOf_iff_suffix]
  exact List.suffix_append l t

lemma isPrefixOf_cons_ne {a b : Char} {as bs : List Char} (h : a ≠ b) :
    (a :: as).isPrefixOf (b :: bs) = false := by
  simp [List.isPrefixOf, h]

lemma pyRstrip_cons_of_not_ws {c : Char} (h : isPyWS c = false) (t : List Char) :
    pyRstrip (c :: t) = c :: pyRstrip t := by
  simp only [pyRstrip, h, Bool.and_false, Bool.false_eq_true, if_false]

lemma pyStrip_cons_of_not_ws {c : Char} (h : isPyWS c = false) (t : List Char) :
    pyStrip (c :: t) = c :: pyRstrip t := by
  unfold pyStrip pyLstrip
  rw [List.dropWhile_cons, if_neg (by simp [h])]
  exact pyRstrip_cons_of_not_ws h t

lemma toLower_eq_y {ch : Char} (h : ch.toLower = 'y') : ch = 'y' ∨ ch = 'Y' := by
  by_cases hb : ch.toNat ≥ 65 ∧ ch.toNat ≤ 90
  · right
    simp only [Char.toLower, ge_iff_le] at h
    rw [if_pos] at h
    · have h2 : (Char.ofNat (ch.toNat + 32)).toNat = 121 := by rw [h]; decide
      have hv : (ch.toNat + 32).isValidChar := Or.inl (by omega)
      rw [Char.ofNat, dif_pos hv] at h2
      simp only [Char.ofNatAux, Char.toNat, UInt32.toNat, BitVec.toNat_ofNatLt] at h2
      have hrfl : ch.toNat = ch.val.toBitVec.toNat := rfl
      have h3 : ch.toNat = 89 := by omega
      have h4 := (Char.ofNat_toNat ch).symm
      rw [h3] at h4
      rw [h4]
    · exact ⟨hb.1, hb.2⟩
  · left
    simp only [Char.toLower, ge_iff_le] at h
    rw [if_neg] at h
    · exact h
    · intro hc
      exact hb ⟨hc.1, hc.2⟩

lemma pyLower_eq_y {c : List Char} (h : pyLower c = ['y']) : c = ['y'] ∨ c = ['Y'] := by
  match c with
  | [] => simp [pyLower] at h
  | [ch] =>
    simp only [pyLower, List.map_cons, List.map_nil, List.cons.injEq, and_true] at h
    rcases toLower_eq_y h with h1 | h1 <;> simp [h1]
  | a :: b :: rest => simp [pyLower] at h

lemma splitBreaksGo_shape (s : List Char) : ∀ cur : List Char,
    ∃ t L, splitBreaksGo cur s = (cur.reverse ++ t) :: L := by
  induction s with
  | nil =>
    intro cur
    exact ⟨[], [], by simp [splitBreaksGo]⟩
  | cons c rest ih =>
    intro cur
    by_cases hc : isLineBreak c = true
    · exact ⟨[], if rest.isEmpty then [] else splitBreaksGo [] rest,
        by simp [splitBreaksGo, hc]⟩
    · obtain ⟨t, L, ht⟩ := ih (c :: cur)
      refine ⟨c :: t, L, ?_⟩
      simp only [splitBreaksGo, hc, Bool.false_eq_true, if_false]
      rw [ht]
      simp

lemma normCRLF_cons_of_ne_cr {c : Char} (h : c ≠ '\r') (s : List Char) :
    ∃ u, normCRLF (c :: s) = c :: u := by
  match s with
  | [] => exact ⟨[], rfl⟩
  | c2 :: rest =>
    refine ⟨normCRLF (c2 :: rest), ?_⟩
    simp only [normCRLF]
    rw [if_neg (by simp [h])]

lemma pySplitlines_head_of {c : Char} (hcr : c ≠ '\r') (hbr : isLineBreak c = false)
    (s : List Char) : ∃ t L, pySplitlines (c :: s) = (c :: t) :: L := by
  obtain ⟨u, hu⟩ := normCRLF_cons_of_ne_cr hcr s
  unfold pySplitlines
  rw [if_neg (by simp), hu]
  simp only [splitBreaksGo, hbr, Bool.false_eq_true, if_false]
  obtain ⟨t, L, h⟩ := splitBreaksGo_shape u [c]
  exact ⟨t, L, by rw [h]; rfl⟩

lemma keepLine_hash_false (t : List Char) : keepLine ('#' :: t) = false := by
  unfold keepLine
  rw [pyStrip_cons_of_not_ws (by decide)]
  simp [List.isPrefixOf]

lemma filter_ne_nil_of_hasCommands {script : List Char} (h : hasCommands script = true) :
    (pySplitlines script).filter keepLine ≠ [] := by
  intro he
  unfold hasCommands cleanScript at h
  rw [he] at h
  simp [joinNL, List.intercalate] at h

lemma isPrefixOf_eq_false_of_head_ne {l1 : List Char} {b : Char} {bs : List Char}
    (h : l1.head? ≠ some b) (hne : l1 ≠ []) : l1.isPrefixOf (b :: bs) = false := by
  match l1 with
  | [] => exact absurd rfl hne
  | a :: as => exact isPrefixOf_cons_ne (fun he => h (by simp [he]))

/-! The claims. -/

/-- C1: in every run, `execute_bash_script` is reached only when the
confirmation line was read successfully and, lowercased, equals `"y"`; it is
never reached on any other input, on empty input, or on end-of-input. -/
theorem C1_executor_only_on_affirmative (i : MainInputs)
    (h : executorReached (mainRun i) = true) :
    ∃ c, i.confirm = some c ∧ pyLower c = ['y'] := by
  unfold mainRun at h
  cases hL : listingGate i.treeOut with
  | nothingToDo =>
    rw [hL] at h
    simp [executorReached] at h
  | proceed =>
    rw [hL] at h
    cases hci : i.confirm with
    | none =>
      rw [hci] at h
      simp [confirmGate, executorReached] at h
    | some c =>
      rw [hci] at h
      by_cases hy : pyLower c = ['y']
      · exact ⟨c, rfl, hy⟩
      · simp [confirmGate, hy, executorReached] at h

/-- C1 witness: a run with listing `"x.txt\nreport.pdf\n"`, response
`"mv a b"`, confirmation `"y"` and a clean script exit reaches the executor,
and the theorem recovers the affirmative input. -/
theorem C1_executor_only_on_affirmative_witness :
    executorReached (mainRun ⟨"x.txt\nreport.pdf\n".data, "mv a b".data,
      some ['y'], ⟨0, [], []⟩⟩) = true ∧
    ∃ c, (MainInputs.mk "x.txt\nreport.pdf\n".data "mv a b".data
      (some ['y']) ⟨0, [], []⟩).confirm = some c ∧ pyLower c = ['y'] :=
  ⟨by decide, C1_executor_only_on_affirmative _ (by decide)⟩

/-- C4: in a run that reaches the confirmation prompt, input exactly `"y"` or
`"Y"` makes the executor run; for any other input, non-empty or empty, the
executor does not run and the process exits with code 0. -/
theorem C4_confirm_exactly_y_or_Y (i : MainInputs) (c : List Char)
    (hg : listingGate i.treeOut = .proceed) (hc : i.confirm = some c) :
    ((c = ['y'] ∨ c = ['Y']) → executorReached (mainRun i) = true) ∧
    (c ≠ ['y'] → c ≠ ['Y'] →
      executorReached (mainRun i) = false ∧ mainExitCode (mainRun i) = 0) := by
  constructor
  · intro hyY
    have hlow : pyLower c = ['y'] := by
      rcases hyY with h1 | h1 <;> subst h1 <;> decide
    unfold mainRun
    rw [hg, hc]
    simp only [confirmGate, hlow, if_true]
    cases execute_bash_script (normalizeResponse i.response) i.runResult <;>
      simp [executorReached]
  · intro hy hY
    have hlow : pyLower c ≠ ['y'] := by
      intro hl
      rcases pyLower_eq_y hl with h1 | h1
      · exact hy h1
      · exact hY h1
    unfold mainRun
    rw [hg, hc]
    simp [confirmGate, hlow, executorReached, mainExitCode]

/-- C4 witness: with listing `"a.txt\n"` and confirmation `"Y"`, the
executor runs; the declination half is instantiated trivially. -/
theorem C4_confirm_exactly_y_or_Y_witness :
    listingGate "a.txt\n".data = .proceed ∧
    (((['Y'] : List Char) = ['y'] ∨ (['Y'] : List Char) = ['Y']) →
      executorReached (mainRun ⟨"a.txt\n".data, "mv a b".data, some ['Y'],
        ⟨0, [], []⟩⟩) = true) ∧
    ((['Y'] : List Char) ≠ ['y'] → (['Y'] : List Char) ≠ ['Y'] →
      executorReached (mainRun ⟨"a.txt\n".data, "mv a b".data, some ['Y'],
        ⟨0, [], []⟩⟩) = false ∧
      mainExitCode (mainRun ⟨"a.txt\n".data, "mv a b".data, some ['Y'],
        ⟨0, [], []⟩⟩) = 0) :=
  ⟨by decide, C4_confirm_exactly_y_or_Y _ ['Y'] (by decide) rfl⟩

/-- C5: if reading the confirmation line hits end-of-input, the run aborts
with exit code 1 without reaching the executor, and that code differs from
the exit code 0 of a declined confirmation. -/
theorem C5_eof_aborts_nonzero (i : MainInputs)
    (hg : listingGate i.treeOut = .proceed) (hc : i.confirm = none) :
    mainRun i = .nonInteractive ∧ mainExitCode (mainRun i) = 1 ∧
    executorReached (mainRun i) = false ∧
    mainExitCode MainOutcome.cancelled = 0 ∧
    mainExitCode (mainRun i) ≠ mainExitCode MainOutcome.cancelled := by
  have h1 : mainRun i = .nonInteractive := by
    unfold mainRun
    rw [hg, hc]
    rfl
  rw [h1]
  exact ⟨rfl, rfl, rfl, rfl, by decide⟩

/-- C5 witness: end-of-input on the prompt with listing `"a.txt\n"`. -/
theorem C5_eof_aborts_nonzero_witness :
    mainRun ⟨"a.txt\n".data, "mv a b".data, none, ⟨0, [], []⟩⟩ =
      .nonInteractive ∧
    mainExitCode (mainRun ⟨"a.txt\n".data, "mv a b".data, none,
      ⟨0, [], []⟩⟩) = 1 ∧
    executorReached (mainRun ⟨"a.txt\n".data, "mv a b".data, none,
      ⟨0, [], []⟩⟩) = false ∧
    mainExitCode MainOutcome.cancelled = 0 ∧
    mainExitCode (mainRun ⟨"a.txt\n".data, "mv a b".data, none,
      ⟨0, [], []⟩⟩) ≠ mainExitCode MainOutcome.cancelled :=
  C5_eof_aborts_nonzero _ (by decide) rfl

/-- C6: a completion response whose trimmed text already starts with `#!`
normalizes to exactly its trimmed text: no second directive is prepended and
the existing directive line is unchanged. -/
theorem C6_existing_shebang_kept (resp : List Char)
    (h : shebangMark.isPrefixOf (pyStrip resp) = true) :
    normalizeResponse resp = pyStrip resp := by
  obtain ⟨t, ht⟩ : ∃ t, pyStrip resp = '#' :: '!' :: t := by
    rw [List.isPrefixOf_iff_prefix] at h
    obtain ⟨t, ht⟩ := h
    exact ⟨t, ht.symm⟩
  have hne : pyStrip resp ≠ [] := by
    rw [ht]
    simp
  have hrne : resp ≠ [] := ne_nil_of_pyStrip_ne_nil hne
  have h2 : fenceBash.isPrefixOf (pyStrip resp) = false := by
    rw [ht]
    exact isPrefixOf_eq_false_of_head_ne (by decide) (by decide)
  have h3 : fence.isPrefixOf (pyStrip resp) = false := by
    rw [ht]
    exact isPrefixOf_eq_false_of_head_ne (by decide) (by decide)
  have hsh : shebangMark.isPrefixOf (pyStrip resp) = true := h
  unfold normalizeResponse
  rw [if_neg (by simp [hrne, hne])]
  simp only [h2, h3, hsh, Bool.false_eq_true, if_false, if_true]

/-- C6 witness: the response `"#!/bin/sh\nmv a b\n"` keeps its directive. -/
theorem C6_existing_shebang_kept_witness :
    shebangMark.isPrefixOf (pyStrip "#!/bin/sh\nmv a b\n".data) = true ∧
    normalizeResponse "#!/bin/sh\nmv a b\n".data =
      pyStrip "#!/bin/sh\nmv a b\n".data :=
  ⟨by decide, C6_existing_shebang_kept _ (by decide)⟩

/-- C7: an empty or whitespace-only completion response normalizes to the
non-empty placeholder script, whose two lines are exactly the interpreter
directive and a comment noting the empty response. -/
theorem C7_empty_response_placeholder (resp : List Char) (h : pyStrip resp = []) :
    normalizeResponse resp = emptyPlaceholder ∧ emptyPlaceholder ≠ [] ∧
    pySplitlines emptyPlaceholder =
      ["#!/bin/bash".data, "# Groq returned empty response".data] := by
  refine ⟨?_, by decide, by decide⟩
  unfold normalizeResponse
  rw [if_pos (by simp [h])]

/-- C7 witness: the whitespace-only response `"  \n"`. -/
theorem C7_empty_response_placeholder_witness :
    pyStrip "  \n".data = [] ∧
    (normalizeResponse "  \n".data = emptyPlaceholder ∧ emptyPlaceholder ≠ [] ∧
      pySplitlines emptyPlaceholder =
        ["#!/bin/bash".data, "# Groq returned empty response".data]) :=
  ⟨by decide, C7_empty_response_placeholder _ (by decide)⟩

/-- C8: a script whose every line is blank or, once stripped, starts with
`#`, makes the executor report nothing to execute and return without
invoking the shell, a success path (the resulting outcome exits 0). -/
theorem C8_comments_only_skips (script : List Char) (run : ProcResult)
    (h : ∀ l ∈ pySplitlines script,
      pyStrip l = [] ∨ ['#'].isPrefixOf (pyStrip l) = true) :
    execute_bash_script script run = .skipped ∧
    mainExitCode MainOutcome.execSkipped = 0 := by
  refine ⟨?_, rfl⟩
  have hfil : (pySplitlines script).filter keepLine = [] := by
    rw [List.filter_eq_nil_iff]
    intro l hl
    rcases h l hl with h1 | h1 <;> simp [keepLine, h1]
  unfold execute_bash_script hasCommands cleanScript
  rw [hfil]
  rfl

/-- C8 witness: the placeholder-style script `"#!/bin/bash\n# nothing\n"`. -/
theorem C8_comments_only_skips_witness :
    (∀ l ∈ pySplitlines "#!/bin/bash\n# nothing\n".data,
      pyStrip l = [] ∨ ['#'].isPrefixOf (pyStrip l) = true) ∧
    (execute_bash_script "#!/bin/bash\n# nothing\n".data ⟨0, [], []⟩ =
      .skipped ∧ mainExitCode MainOutcome.execSkipped = 0) :=
  ⟨by decide, C8_comments_only_skips _ _ (by decide)⟩

/-- C2 counterexample: the listing text `"0 directories, 0 files"` contains
the substring `"0 directories, 0 files"` named by the claim and is neither
empty nor whitespace-only, yet the gate of line 203 proceeds and the
completion service is called, because the code tests the marker with a
leading space. -/
theorem C2_counterexample :
    pyContains emptyTreeMarkerNoSpace "0 directories, 0 files".data = true ∧
    "0 directories, 0 files".data ≠ ([] : List Char) ∧
    pyStrip "0 directories, 0 files".data ≠ [] ∧
    listingGate "0 directories, 0 files".data = .proceed ∧
    completionCalled ⟨"0 directories, 0 files".data, [], none, ⟨0, [], []⟩⟩ =
      true := by
  decide

/-- C2 amended: for every listing text containing the substring
`" 0 directories, 0 files"` (with the leading space tested on line 203), and
for every empty or whitespace-only listing text, the pipeline exits with
code 0 without calling the completion service. -/
theorem C2_amended_empty_listing_exits_0 (t resp : List Char)
    (confirm : Option (List Char)) (run : ProcResult)
    (h : t = [] ∨ pyStrip t = [] ∨ pyContains emptyTreeMarker t = true) :
    listingGate t = .nothingToDo ∧
    completionCalled ⟨t, resp, confirm, run⟩ = false ∧
    mainRun ⟨t, resp, confirm, run⟩ = .noFiles ∧
    mainExitCode (mainRun ⟨t, resp, confirm, run⟩) = 0 := by
  have hg : listingGate t = .nothingToDo := by
    unfold listingGate
    rcases h with h | h | h
    · rw [if_pos (by simp [h])]
    · rw [if_pos (by simp [h])]
    · rw [if_pos (by simp [h])]
  refine ⟨hg, ?_, ?_, ?_⟩
  · simp [completionCalled, hg]
  · simp [mainRun, hg]
  · simp [mainRun, hg, mainExitCode]

/-- C2 witness: a `tree` output carrying the leading-space marker. -/
theorem C2_amended_empty_listing_exits_0_witness :
    pyContains emptyTreeMarker ".\n\n 0 directories, 0 files\n".data = true ∧
    (listingGate ".\n\n 0 directories, 0 files\n".data = .nothingToDo ∧
      completionCalled ⟨".\n\n 0 directories, 0 files\n".data, [], none,
        ⟨0, [], []⟩⟩ = false ∧
      mainRun ⟨".\n\n 0 directories, 0 files\n".data, [], none,
        ⟨0, [], []⟩⟩ = .noFiles ∧
      mainExitCode (mainRun ⟨".\n\n 0 directories, 0 files\n".data, [], none,
        ⟨0, [], []⟩⟩) = 0) :=
  ⟨by decide,
    C2_amended_empty_listing_exits_0 _ _ _ _ (Or.inr (Or.inr (by decide)))⟩

/-- C9: when the approved script reaches the shell and exits non-zero, the
run ends as a failure carrying that exit code, the first-command-line hint
and the captured stdout and stderr, and the whole process exits with exactly
the script's own exit code. -/
theorem C9_failure_propagates_exit_code (i : MainInputs)
    (hg : listingGate i.treeOut = .proceed)
    (ha : confirmGate i.confirm = .approved)
    (hcmd : hasCommands (normalizeResponse i.response) = true)
    (hf : i.runResult.exitCode ≠ 0) :
    mainRun i = .execFailed i.runResult.exitCode
      (firstCommandHint (normalizeResponse i.response))
      i.runResult.out i.runResult.err ∧
    mainExitCode (mainRun i) = i.runResult.exitCode := by
  have hexec : execute_bash_script (normalizeResponse i.response) i.runResult =
      .failed i.runResult.exitCode
        (firstCommandHint (normalizeResponse i.response))
        i.runResult.out i.runResult.err := by
    unfold execute_bash_script
    rw [hcmd]
    simp only [Bool.not_true, Bool.false_eq_true, if_false]
    rw [if_neg hf]
  have h1 : mainRun i = .execFailed i.runResult.exitCode
      (firstCommandHint (normalizeResponse i.response))
      i.runResult.out i.runResult.err := by
    unfold mainRun
    rw [hg, ha, hexec]
  rw [h1]
  exact ⟨rfl, rfl⟩

/-- C9 witness: listing `"a.txt\n"`, response `"mv a b"`, confirmation
`"y"`, and a script run failing with exit code 3. -/
theorem C9_failure_propagates_exit_code_witness :
    (hasCommands (normalizeResponse "mv a b".data) = true ∧
      (ProcResult.mk 3 "out".data "err".data).exitCode ≠ 0) ∧
    (mainRun ⟨"a.txt\n".data, "mv a b".data, some ['y'],
        ⟨3, "out".data, "err".data⟩⟩ =
      .execFailed (ProcResult.mk 3 "out".data "err".data).exitCode
        (firstCommandHint (normalizeResponse "mv a b".data))
        (ProcResult.mk 3 "out".data "err".data).out
        (ProcResult.mk 3 "out".data "err".data).err ∧
      mainExitCode (mainRun ⟨"a.txt\n".data, "mv a b".data, some ['y'],
        ⟨3, "out".data, "err".data⟩⟩) =
        (ProcResult.mk 3 "out".data "err".data).exitCode) :=
  ⟨⟨by decide, by decide⟩,
    C9_failure_propagates_exit_code _ (by decide) (by decide) (by decide)
      (by decide)⟩

/-- C10: whenever the executor reaches the shell invocation (the script has
a non-blank, non-comment line), the index used on line 184 to print the
first command line (1 when the script starts with `#!`, else 0) is in
bounds for `splitlines()`. -/
theorem C10_hint_index_in_bounds (script : List Char)
    (h : hasCommands script = true) :
    (if shebangMark.isPrefixOf script then 1 else 0) <
      (pySplitlines script).length ∧
    (firstCommandHint script).isSome = true := by
  have hfil := filter_ne_nil_of_hasCommands h
  have hlt : (if shebangMark.isPrefixOf script then 1 else 0) <
      (pySplitlines script).length := by
    by_cases hs : shebangMark.isPrefixOf script = true
    · rw [if_pos hs]
      obtain ⟨rest, hrest⟩ : ∃ rest, script = '#' :: '!' :: rest := by
        rw [List.isPrefixOf_iff_prefix] at hs
        obtain ⟨u, hu⟩ := hs
        exact ⟨u, hu.symm⟩
      subst hrest
      obtain ⟨t, L, hL⟩ := @pySplitlines_head_of '#' (by decide) (by decide)
        ('!' :: rest)
      rw [hL] at hfil ⊢
      rw [List.filter_cons_of_neg (by simp [keepLine_hash_false])] at hfil
      have hLne : L ≠ [] := by
        intro he
        rw [he] at hfil
        exact hfil rfl
      have := List.length_pos.mpr hLne
      simp only [List.length_cons]
      omega
    · rw [if_neg hs]
      have hne : pySplitlines script ≠ [] := by
        intro he
        rw [he] at hfil
        exact hfil rfl
      exact List.length_pos.mpr hne
  refine ⟨hlt, ?_⟩
  unfold firstCommandHint
  rw [List.getElem?_eq_getElem hlt]
  rfl

/-- C10 witness: the script `"#!/bin/bash\nmv a b"` has a command line and
its hint index 1 is in bounds. -/
theorem C10_hint_index_in_bounds_witness :
    hasCommands "#!/bin/bash\nmv a b".data = true ∧
    ((if shebangMark.isPrefixOf "#!/bin/bash\nmv a b".data then 1 else 0) <
      (pySplitlines "#!/bin/bash\nmv a b".data).length ∧
    (firstCommandHint "#!/bin/bash\nmv a b".data).isSome = true) :=
  ⟨by decide, C10_hint_index_in_bounds _ (by decide)⟩

/-- C3 counterexample: the response wrapped in a fenced-code block with
language tag `sh` has inner content `"echo hi"`, but normalization strips
only the three backticks and keeps the tag text, yielding a script that is
not the inner content modulo trimming and a possibly-added directive. -/
theorem C3_counterexample :
    normalizeResponse "```sh\necho hi\n```".data =
      "#!/bin/bash\nsh\necho hi".data ∧
    normalizeResponse "```sh\necho hi\n```".data ≠ "echo hi".data ∧
    normalizeResponse "```sh\necho hi\n```".data ≠
      pyStrip "echo hi".data ∧
    normalizeResponse "```sh\necho hi\n```".data ≠
      (shebangLine ++ "echo hi".data) ∧
    normalizeResponse "```sh\necho hi\n```".data ≠
      pyStrip (shebangLine ++ "echo hi".data) := by
  decide

/-- C3 amended: for a completion response whose trimmed text is the opening
marker with the `bash` tag, inner content, and a closing marker, or the bare
opening marker (not extending to the tagged one), inner content, and a
closing marker, normalization yields exactly the trimmed inner content when
that content starts with an interpreter directive, and otherwise the
standard directive line followed by the inner content, trimmed; for any
other language tag the tag text is kept in the output. -/
theorem C3_amended_fence_stripping (resp inner : List Char)
    (h : pyStrip resp = fenceBash ++ (inner ++ fence) ∨
      (fenceBash.isPrefixOf (pyStrip resp) = false ∧
        pyStrip resp = fence ++ (inner ++ fence))) :
    normalizeResponse resp =
      if shebangMark.isPrefixOf (pyStrip inner) then pyStrip inner
      else pyStrip (shebangLine ++ inner) := by
  have hsuf : fence.isSuffixOf (inner ++ fence) = true := isSuffixOf_append_self _ _
  have htake : (inner ++ fence).take ((inner ++ fence).length - 3) = inner := by
    have h3 : (inner ++ fence).length - 3 = inner.length := by
      have : fence.length = 3 := by decide
      rw [List.length_append, this]
      omega
    rw [h3]
    exact List.take_left _ _
  rcases h with h | ⟨hnb, h⟩
  · have hne : pyStrip resp ≠ [] := by
      rw [h]
      intro he
      exact absurd (List.append_eq_nil.mp he).1 (by decide)
    have hrne : resp ≠ [] := ne_nil_of_pyStrip_ne_nil hne
    have hpre : fenceBash.isPrefixOf (pyStrip resp) = true := by
      rw [h]
      exact isPrefixOf_append_self _ _
    have hdrop : (pyStrip resp).drop 7 = inner ++ fence := by
      rw [h]
      exact List.drop_left' (by decide)
    unfold normalizeResponse
    rw [if_neg (by simp [hrne, hne])]
    simp only [hpre, if_true, hdrop, hsuf, htake]
  · have hne : pyStrip resp ≠ [] := by
      rw [h]
      intro he
      exact absurd (List.append_eq_nil.mp he).1 (by decide)
    have hrne : resp ≠ [] := ne_nil_of_pyStrip_ne_nil hne
    have hpre : fence.isPrefixOf (pyStrip resp) = true := by
      rw [h]
      exact isPrefixOf_append_self _ _
    have hdrop : (pyStrip resp).drop 3 = inner ++ fence := by
      rw [h]
      exact List.drop_left' (by decide)
    unfold normalizeResponse
    rw [if_neg (by simp [hrne, hne])]
    simp only [hnb, Bool.false_eq_true, if_false, hpre, if_true, hdrop, hsuf,
      htake]

/-- C3 witness: the `bash`-tagged response `"```bash\necho hi\n```"` with
inner content `"\necho hi\n"`. -/
theorem C3_amended_fence_stripping_witness :
    pyStrip "```bash\necho hi\n```".data =
      fenceBash ++ ("\necho hi\n".data ++ fence) ∧
    normalizeResponse "```bash\necho hi\n```".data =
      (if shebangMark.isPrefixOf (pyStrip "\necho hi\n".data) then
        pyStrip "\necho hi\n".data
      else pyStrip (shebangLine ++ "\necho hi\n".data)) :=
  ⟨by decide, C3_amended_fence_stripping _ _ (Or.inl (by decide))⟩

end Organizer
